import Mathlib

/-!
# Verification of `stock_data.py`

A shallow embedding of the stock-data pipeline: the fetch/decode function
`download_data`, the aggregation function `process_data`, the interactive
persistence routine `store_json`, and the module-level batch loop.

Modelling conventions:
* Python dicts are modelled by structures holding exactly the keys the code
  accesses; a key the payload may lack is an `Option` field (`none` models the
  `KeyError` / `TypeError` path, which the code's `try/except` turns into the
  empty-dict sentinel or lets escape).
* Closing prices are modelled as rationals `ℚ` (exact arithmetic in place of
  IEEE doubles).
* Python strings are Lean `String`s; `.lower()` / `.upper()` are
  `String.toLower` / `String.toUpper` (the inputs involved are ASCII).
* `print` diagnostics are collected in a `List String` where a claim needs
  them; otherwise they are dropped.
-/

namespace StockData

/-- Python's `str.lower()`, modelled character-wise (the strings the code
lowercases — file names, `"cancel"`, yes/no responses — are ASCII, where
`Char.toLower` agrees with Python). -/
def pyLower (s : String) : String := ⟨s.data.map Char.toLower⟩

/-- Python's `str.upper()`, modelled character-wise (ticker symbols are
ASCII). -/
def pyUpper (s : String) : String := ⟨s.data.map Char.toUpper⟩

/-- One element of the `data.chart` list.  The code reads only `day["y"]`;
`y = none` models a point lacking the `"y"` key (the `KeyError` path). -/
structure PricePoint where
  y : Option ℚ
  deriving DecidableEq, Repr

/-- The inner `data` dictionary, as accessed by `process_data`:
`data["chart"]` and `data["symbol"]`.  `otherKeys` records whether the dict
has any further keys; it matters only for the `data == {}` comparison. -/
structure StockDict where
  chart : Option (List PricePoint)
  symbol : Option String
  otherKeys : Bool
  deriving DecidableEq, Repr

/-- The empty dict `{}`, the sentinel every failure path returns. -/
def emptyDict : StockDict := ⟨none, none, false⟩

/-- The Python comparison `data == {}`. -/
def StockDict.isEmptyDict (d : StockDict) : Bool :=
  d.chart.isNone && d.symbol.isNone && !d.otherKeys

/-- The top-level `status` object; `rCode = none` models a status dict without
an `"rCode"` key (the `KeyError` path inside the same `try`). -/
structure StatusObj where
  rCode : Option Int
  deriving DecidableEq, Repr

/-- The decompressed, parsed top-level JSON envelope, as accessed by
`download_data`: `data["status"]["rCode"]` and `data["data"]`. -/
structure Envelope where
  status : Option StatusObj
  data : Option StockDict
  deriving DecidableEq, Repr

/-- The decompress/parse fate of the raw response bytes. -/
inductive RawPayload where
  | notGzip
  | badJson
  | json (e : Envelope)
  deriving DecidableEq, Repr

/-- The outcome of `urlopen(req, timeout = 5).read()`: either some exception
(connection failure, timeout, HTTP error status) or the response bytes. -/
inductive FetchResult where
  | failure
  | ok (payload : RawPayload)
  deriving DecidableEq, Repr

/-- Diagnostic messages printed by `download_data`. -/
def msgUnreachable : String := "The server could not be reached"

def msgNotGzip : String :=
  "The data was not compressed with gzip or could not be decompressed"

def msgNoTicker : String := "The ticker does not exist"

def msgBadJson : String := "The data format is not in json or there is no data"

/-- The third `try` block of `download_data`, applied to a parsed envelope:
check `data["status"]["rCode"] != 200`, then extract `data["data"]`; a
missing `"status"`, `"rCode"` or `"data"` key raises `KeyError`, caught by
the same `except`. -/
def decodeEnvelope (e : Envelope) : StockDict × List String :=
  match e.status with
  | none => (emptyDict, [msgBadJson])
  | some st =>
    match st.rCode with
    | none => (emptyDict, [msgBadJson])
    | some c =>
      if c ≠ 200 then (emptyDict, [msgNoTicker])
      else
        match e.data with
        | none => (emptyDict, [msgBadJson])
        | some d => (d, [])

/-- The decode half of `download_data` (everything after the network call):
decompress, parse, then `decodeEnvelope`.  Returns the resulting dict
together with the printed diagnostics.  Every `except` branch returns the
`{}` sentinel. -/
def decodeResponse : FetchResult → StockDict × List String
  | .failure => (emptyDict, [msgUnreachable])
  | .ok .notGzip => (emptyDict, [msgNotGzip])
  | .ok .badJson => (emptyDict, [msgBadJson])
  | .ok (.json e) => decodeEnvelope e

/-- `download_data`: the network boundary is a function `net` from the
uppercased ticker in the request URL to the transport outcome; the function
issues exactly one request and decodes the response. -/
def download_data (net : String → FetchResult) (ticker : String) :
    StockDict × List String :=
  decodeResponse (net (pyUpper ticker))

/-- The statistics record built by `process_data`. -/
structure TickerStats where
  min : ℚ
  max : ℚ
  avg : ℚ
  median : ℚ
  ticker : String
  deriving DecidableEq, Repr

/-- What a call to `process_data` does: return `{}`, return a stats dict, or
let an exception escape (`closing_prices[0]` on an empty list,
`data["symbol"]` on a dict without that key — neither is inside a `try`). -/
inductive ProcessResult where
  | emptyDict
  | stats (s : TickerStats)
  | crash
  deriving DecidableEq, Repr

/-- The extraction loop `for day in data["chart"]: closing_prices.append(day["y"])`:
`none` when some element lacks the `"y"` key (`KeyError`, caught). -/
def extractY : List PricePoint → Option (List ℚ)
  | [] => some []
  | p :: ps =>
    match p.y with
    | none => none
    | some v => (extractY ps).map (v :: ·)

/-- `closing_prices.sort()`: ascending sort of the rationals. -/
def sortQ (l : List ℚ) : List ℚ := l.insertionSort (· ≤ ·)

/-- `statistics.mean`: the arithmetic mean. -/
def mean (l : List ℚ) : ℚ := l.sum / l.length

/-- `statistics.median`: sorts its input, takes the midpoint for odd length
and the average of the two midpoints for even length. -/
def median (l : List ℚ) : ℚ :=
  let s := sortQ l
  if s.length % 2 = 1 then s.getD (s.length / 2) 0
  else (s.getD (s.length / 2 - 1) 0 + s.getD (s.length / 2) 0) / 2

/-- `process_data`: the aggregator.  Mirrors the source line by line:
the `data == {}` early return; the guarded extraction-and-sort (whose
`except` returns `{}`); then the stats dict literal, whose evaluation of
`closing_prices[0]` raises an uncaught `IndexError` when the chart was
empty, and whose `data["symbol"]` raises an uncaught `KeyError` when the
dict has no `"symbol"` key. -/
def process_data (data : StockDict) : ProcessResult :=
  if data.isEmptyDict then .emptyDict
  else
    match data.chart with
    | none => .emptyDict
    | some chart =>
      match extractY chart with
      | none => .emptyDict
      | some ys =>
        match sortQ ys with
        | [] => .crash
        | c0 :: rest =>
          match data.symbol with
          | none => .crash
          | some sym =>
            .stats ⟨c0, (c0 :: rest).getLastD 0,
                    mean (c0 :: rest), median (c0 :: rest), sym⟩

/-- The module-level batch loop over command-line tickers:
`stats = process_data(download_data(ticker)); if stats: stats_list.append(stats)`.
`none` models an unhandled exception aborting the whole run. -/
def runBatch (net : String → FetchResult) : List String → Option (List TickerStats)
  | [] => some []
  | t :: ts =>
    match process_data (download_data net t).1 with
    | .crash => none
    | .emptyDict => runBatch net ts
    | .stats s => (runBatch net ts).map (s :: ·)

/-! ## The Persister: `store_json`

The file-naming negotiation loop is embedded as a state machine consuming the
operator's responses one `input()` at a time.  The filesystem is a map from
names to contents plus a writability predicate; `open(name, "r")` is modelled
as succeeding exactly when the file exists, `open(name, "w")` as truncating
the file when `writable` and raising otherwise, and a successful `dump` as
setting the contents to the serialized batch (an abstract `payload` string).

Control-flow notes tying the model to the source:
* Every `open(..., "w")` in the source either succeeds — which makes `file`
  truthy, ends the `while` loop, and is followed by the `dump` — or raises
  before any file is opened.  So at most one file is ever opened for writing
  per run, recorded in the result's `wrote` field.
* Inside the overwrite-confirmation `try` block, an empty response makes
  `response[0]` raise `IndexError`, and an exhausted input stream makes
  `input()` raise `EOFError`; both are caught by the bare `except` whose
  intended role (per its comment) is the file-does-not-exist case, and that
  branch opens the file for writing.
* An exhausted input stream at the *name* prompt raises `EOFError` outside
  any `try`, aborting the routine (`eof` in the result). -/

/-- The filesystem boundary. -/
structure FileSys where
  contents : String → Option String
  writable : String → Bool

/-- Overwrite (or create) a file's contents. -/
def FileSys.set (fs : FileSys) (name : String) (v : String) : FileSys :=
  ⟨fun n => if n = name then some v else fs.contents n, fs.writable⟩

/-- Which prompt the routine is blocked on: the name prompt, or the
overwrite yes/no prompt for an existing file `target`. -/
inductive Mode where
  | name
  | confirm (target : String)
  deriving DecidableEq, Repr

/-- The observable outcome of `store_json`: the final filesystem, the file
opened for writing and dumped to (if any), and whether the run died with an
uncaught `EOFError` at the name prompt. -/
structure StoreResult where
  fs : FileSys
  wrote : Option String
  eof : Bool

/-- One run of `store_json`'s negotiation loop, consuming operator responses
in order.  `payload` is the serialized JSON batch written by `dump`. -/
def storeRun (payload : String) (fs : FileSys) : Mode → List String → StoreResult
  | .name, [] => ⟨fs, none, true⟩
  | .name, n :: rest =>
    if pyLower n = "cancel" then ⟨fs, none, false⟩
    else
      match fs.contents n with
      | some _ => storeRun payload fs (.confirm n) rest
      | none =>
        if fs.writable n then ⟨fs.set n payload, some n, false⟩
        else storeRun payload fs .name rest
  | .confirm t, [] =>
    if fs.writable t then ⟨fs.set t payload, some t, false⟩
    else ⟨fs, none, true⟩
  | .confirm t, r :: rest =>
    match (pyLower r).data with
    | [] =>
      if fs.writable t then ⟨fs.set t payload, some t, false⟩
      else storeRun payload fs .name rest
    | c :: _ =>
      if c = 'y' then
        if fs.writable t then ⟨fs.set t payload, some t, false⟩
        else storeRun payload fs .name rest
      else if c = 'n' then storeRun payload fs .name rest
      else storeRun payload fs (.confirm t) rest

/-- `store_json`: enters the loop at the name prompt (`file = None`,
`file_name = ""`). -/
def store_json (payload : String) (fs : FileSys) (inputs : List String) :
    StoreResult :=
  storeRun payload fs .name inputs

/-! ## Helper lemmas -/

theorem sortQ_perm (l : List ℚ) : List.Perm (sortQ l) l :=
  List.perm_insertionSort _ l

theorem sortQ_sorted (l : List ℚ) : (sortQ l).Sorted (· ≤ ·) :=
  List.sorted_insertionSort _ l

theorem sortQ_length (l : List ℚ) : (sortQ l).length = l.length :=
  (sortQ_perm l).length_eq

theorem sortQ_of_sorted {l : List ℚ} (h : l.Sorted (· ≤ ·)) : sortQ l = l :=
  List.Sorted.insertionSort_eq h

theorem sortQ_sortQ (l : List ℚ) : sortQ (sortQ l) = sortQ l :=
  sortQ_of_sorted (sortQ_sorted l)

theorem sortQ_eq_of_perm {l₁ l₂ : List ℚ} (h : List.Perm l₁ l₂) :
    sortQ l₁ = sortQ l₂ :=
  List.eq_of_perm_of_sorted ((sortQ_perm l₁).trans (h.trans (sortQ_perm l₂).symm))
    (sortQ_sorted l₁) (sortQ_sorted l₂)

theorem mean_perm {l₁ l₂ : List ℚ} (h : List.Perm l₁ l₂) : mean l₁ = mean l₂ := by
  unfold mean
  rw [h.sum_eq, h.length_eq]

theorem median_sortQ (l : List ℚ) : median (sortQ l) = median l := by
  unfold median
  rw [sortQ_sortQ]

/-- In a sorted nonempty list, every member is at most the last element. -/
theorem sorted_le_getLastD :
    ∀ {l : List ℚ}, l.Sorted (· ≤ ·) → ∀ {v : ℚ}, v ∈ l → ∀ d, v ≤ l.getLastD d
  | [], _, _, hv, _ => absurd hv (List.not_mem_nil _)
  | [a], _, _, hv, _ => by
      rcases List.mem_singleton.mp hv with rfl
      simp
  | a :: b :: t, hs, v, hv, d => by
      rw [List.getLastD_cons]
      rcases List.mem_cons.mp hv with rfl | hv'
      · exact le_trans (List.rel_of_sorted_cons hs _ (List.mem_cons_self b t))
          (sorted_le_getLastD hs.of_cons (List.mem_cons_self b t) d)
      · exact sorted_le_getLastD hs.of_cons hv' d

/-- Closed form of the extraction loop: it succeeds iff every point has a
`"y"` key, and then returns the values in chart order. -/
theorem extractY_eq (l : List PricePoint) :
    extractY l =
      if l.all (fun p => p.y.isSome) then some (l.map fun p => p.y.getD 0)
      else none := by
  induction l with
  | nil => simp [extractY]
  | cons p ps ih =>
      rcases hy : p.y with _ | v
      · simp [extractY, hy]
      · simp only [extractY, hy, ih]
        by_cases hall : ps.all (fun p => p.y.isSome)
        · simp [hall, hy]
        · simp [hall, hy]

theorem isEmptyDict_of_chart {d : StockDict} {c : List PricePoint}
    (h : d.chart = some c) : d.isEmptyDict = false := by
  simp [StockDict.isEmptyDict, h]

/-- Unfolding of `process_data` on the success path. -/
theorem process_data_eq_stats {d : StockDict} {chart : List PricePoint}
    {ys : List ℚ} {c0 : ℚ} {rest : List ℚ} {sym : String}
    (hc : d.chart = some chart) (hy : extractY chart = some ys)
    (hsort : sortQ ys = c0 :: rest) (hsym : d.symbol = some sym) :
    process_data d =
      .stats ⟨c0, (c0 :: rest).getLastD 0, mean (c0 :: rest),
              median (c0 :: rest), sym⟩ := by
  simp [process_data, isEmptyDict_of_chart hc, hc, hy, hsort, hsym]

/-- The last element (with default) of a nonempty list is a member. -/
theorem getLastD_mem : ∀ (a : ℚ) (l : List ℚ) (d : ℚ), (a :: l).getLastD d ∈ a :: l
  | _, [], _ => by simp
  | a, b :: l, d => by
      rw [List.getLastD_cons]
      exact List.mem_cons_of_mem a (getLastD_mem b l d)

/-- `getLastD` is indexing at `length - 1`. -/
theorem getLastD_eq_getD :
    ∀ (a : ℚ) (l : List ℚ) (d : ℚ),
      (a :: l).getLastD d = (a :: l).getD ((a :: l).length - 1) d
  | _, [], _ => by simp
  | a, b :: l, d => by
      have h1 : (a :: b :: l).getLastD d = (b :: l).getLastD d := rfl
      rw [h1, getLastD_eq_getD b l d]
      simp only [List.length_cons, Nat.add_sub_cancel, List.getD_cons_succ]

/-- Unfolding of `process_data` when the dict lacks a `"symbol"` key but the
series is otherwise valid: the `KeyError` escapes. -/
theorem process_data_eq_crash_no_symbol {d : StockDict}
    {chart : List PricePoint} {ys : List ℚ} {c0 : ℚ} {rest : List ℚ}
    (hc : d.chart = some chart) (hy : extractY chart = some ys)
    (hsort : sortQ ys = c0 :: rest) (hsym : d.symbol = none) :
    process_data d = .crash := by
  simp [process_data, isEmptyDict_of_chart hc, hc, hy, hsort, hsym]

/-! ## The claims -/

/-- C1: the spec says an empty `PriceSeries` makes the Aggregator return the
empty sentinel, the ticker is omitted, the run continues, and no unhandled
fault is raised.  The code instead evaluates `closing_prices[0]` on the
empty list outside any `try`: an uncaught `IndexError` escapes
`process_data` and aborts the whole batch, so a later ticker is never
processed.  This theorem evaluates the code at the failing input: a decoded
dict with an empty chart crashes, and a batch whose first ticker decodes to
an empty chart dies before reaching the second ticker. -/
theorem C1_empty_series_crashes :
    process_data ⟨some [], some "MSFT", false⟩ = .crash ∧
    runBatch
      (fun _ => .ok (.json ⟨some ⟨some 200⟩, some ⟨some [], some "MSFT", false⟩⟩))
      ["MSFT", "AAPL"] = none := by
  constructor
  · rfl
  · rfl

/-- C2 counterexample: a payload whose JSON has the legacy shape — a chart
list of points under `data` but no top-level `status` object — is rejected
with the generic invalid-JSON/no-data diagnostic, because
`data["status"]["rCode"]` is evaluated unconditionally and the `KeyError` is
caught by the surrounding `except`.  The claim says decoding succeeds and
yields the series. -/
theorem C2_counterexample :
    decodeResponse
      (.ok (.json ⟨none, some ⟨some [⟨some 10⟩, ⟨some 20⟩], some "MSFT", false⟩⟩)) =
      (emptyDict, [msgBadJson]) := rfl

/-- C2 amended: every payload that decompresses to well-formed JSON without a
top-level status object fails decoding with the generic
invalid-JSON/no-data Failure, whatever lies at `data.chart`; the legacy
no-status envelope is not supported, since the status check is
unconditional. -/
theorem C2_no_status_always_fails (e : Envelope) (h : e.status = none) :
    decodeResponse (.ok (.json e)) = (emptyDict, [msgBadJson]) := by
  show decodeEnvelope e = (emptyDict, [msgBadJson])
  unfold decodeEnvelope
  rw [h]

/-- C2 witness. -/
theorem C2_no_status_always_fails_witness :
    decodeResponse
      (.ok (.json ⟨none, some ⟨some [⟨some 10⟩], some "AAPL", false⟩⟩)) =
      (emptyDict, [msgBadJson]) :=
  C2_no_status_always_fails ⟨none, some ⟨some [⟨some 10⟩], some "AAPL", false⟩⟩ rfl

/-- C5: a status-checked payload (top-level status object present, with an
`rCode`) whose code is not 200 is rejected with the "ticker does not exist"
Failure regardless of the chart content; and whenever decoding emits no
diagnostic, the status object was present with `rCode = 200` and the
returned dict is exactly the one at `data`. -/
theorem C5_status_gate :
    (∀ (e : Envelope) (st : StatusObj) (c : Int),
        e.status = some st → st.rCode = some c → c ≠ 200 →
        decodeResponse (.ok (.json e)) = (emptyDict, [msgNoTicker])) ∧
    (∀ e : Envelope, (decodeResponse (.ok (.json e))).2 = [] →
        ∃ st, e.status = some st ∧ st.rCode = some 200 ∧
          ∃ d, e.data = some d ∧ (decodeResponse (.ok (.json e))).1 = d) := by
  constructor
  · intro e st c hst hc hne
    show decodeEnvelope e = (emptyDict, [msgNoTicker])
    simp [decodeEnvelope, hst, hc, hne]
  · intro e h
    obtain ⟨status, data⟩ := e
    replace h : (decodeEnvelope ⟨status, data⟩).2 = [] := h
    rcases status with _ | st
    · simp [decodeEnvelope] at h
    · rcases hc : st.rCode with _ | c
      · simp [decodeEnvelope, hc] at h
      · by_cases h200 : c = 200
        · subst h200
          rcases data with _ | d
          · simp [decodeEnvelope, hc] at h
          · exact ⟨st, rfl, hc, d, rfl, by simp [decodeResponse, decodeEnvelope, hc]⟩
        · simp [decodeEnvelope, hc, h200] at h

/-- C5 witness: a status object with `rCode = 404` and a nonempty chart is
rejected with the "ticker does not exist" diagnostic. -/
theorem C5_status_gate_witness :
    decodeResponse
      (.ok (.json ⟨some ⟨some 404⟩, some ⟨some [⟨some 5⟩], some "X", false⟩⟩)) =
      (emptyDict, [msgNoTicker]) :=
  C5_status_gate.1 ⟨some ⟨some 404⟩, some ⟨some [⟨some 5⟩], some "X", false⟩⟩
    ⟨some 404⟩ 404 rfl rfl (by decide)

/-- C8: when the transport layer fails for a ticker (connection failure,
timeout, or an HTTP error raised by `urlopen`), `download_data` returns the
empty-dict sentinel with the "server could not be reached" diagnostic
instead of propagating the exception — it consults the network exactly once,
with no retry — and the batch loop processes the remaining tickers exactly
as it would have without the failed one. -/
theorem C8_fetch_failure_nonfatal (net : String → FetchResult) (t : String)
    (ts : List String) (h : net (pyUpper t) = .failure) :
    download_data net t = (emptyDict, [msgUnreachable]) ∧
    runBatch net (t :: ts) = runBatch net ts := by
  have hd : download_data net t = (emptyDict, [msgUnreachable]) := by
    unfold download_data
    rw [h]
    rfl
  refine ⟨hd, ?_⟩
  have hpe : process_data emptyDict = ProcessResult.emptyDict := rfl
  simp only [runBatch, hd, hpe]

/-- C8 witness: with an unreachable network, a two-ticker batch still runs to
completion (yielding the empty batch), the failed fetch returning the
sentinel. -/
theorem C8_fetch_failure_nonfatal_witness :
    download_data (fun _ => .failure) "msft" = (emptyDict, [msgUnreachable]) ∧
    runBatch (fun _ => .failure) ["msft", "aapl"] =
      runBatch (fun _ => .failure) ["aapl"] :=
  C8_fetch_failure_nonfatal (fun _ => .failure) "msft" ["aapl"] rfl

/-- C4: for every non-empty extracted series, `process_data` returns min =
the first element of the ascending sort (the smallest value), max = the last
(the largest), avg = the arithmetic mean, and median = the standard median:
the value at sorted index `(n-1)/2` for odd `n`, the average of sorted
indices `n/2 - 1` and `n/2` for even `n`. -/
theorem C4_aggregator_stats (d : StockDict) (chart : List PricePoint)
    (ys : List ℚ) (sym : String)
    (hc : d.chart = some chart) (hy : extractY chart = some ys)
    (hne : ys ≠ []) (hsym : d.symbol = some sym) :
    ∃ st : TickerStats, process_data d = .stats st ∧
      List.Perm (sortQ ys) ys ∧ (sortQ ys).Sorted (· ≤ ·) ∧
      st.min = (sortQ ys).getD 0 0 ∧ st.min ∈ ys ∧ (∀ v ∈ ys, st.min ≤ v) ∧
      st.max = (sortQ ys).getD (ys.length - 1) 0 ∧ st.max ∈ ys ∧
        (∀ v ∈ ys, v ≤ st.max) ∧
      st.avg = ys.sum / ys.length ∧
      (ys.length % 2 = 1 →
        st.median = (sortQ ys).getD ((ys.length - 1) / 2) 0) ∧
      (ys.length % 2 = 0 →
        st.median = ((sortQ ys).getD (ys.length / 2 - 1) 0 +
                     (sortQ ys).getD (ys.length / 2) 0) / 2) ∧
      st.ticker = sym := by
  have hslen : (sortQ ys).length = ys.length := sortQ_length ys
  have hperm : List.Perm (sortQ ys) ys := sortQ_perm ys
  have hsorted : (sortQ ys).Sorted (· ≤ ·) := sortQ_sorted ys
  rcases hs : sortQ ys with _ | ⟨c0, rest⟩
  · rw [hs] at hslen
    exact absurd (List.length_eq_zero.mp hslen.symm) hne
  rw [hs] at hperm hsorted hslen
  have hmed : median (c0 :: rest) =
      if (c0 :: rest).length % 2 = 1 then (c0 :: rest).getD ((c0 :: rest).length / 2) 0
      else ((c0 :: rest).getD ((c0 :: rest).length / 2 - 1) 0 +
            (c0 :: rest).getD ((c0 :: rest).length / 2) 0) / 2 := by
    simp only [median, sortQ_of_sorted hsorted]
  refine ⟨_, process_data_eq_stats hc hy hs hsym, hperm, hsorted,
    rfl, ?_, ?_, ?_, ?_, ?_, ?_, ?_, ?_, rfl⟩
  · exact hperm.mem_iff.mp (List.mem_cons_self c0 rest)
  · intro v hv
    have hv' : v ∈ c0 :: rest := hperm.mem_iff.mpr hv
    rcases List.mem_cons.mp hv' with rfl | hv''
    · exact le_refl _
    · exact List.rel_of_sorted_cons hsorted _ hv''
  · show (c0 :: rest).getLastD 0 = (c0 :: rest).getD (ys.length - 1) 0
    rw [getLastD_eq_getD, hslen]
  · exact hperm.mem_iff.mp (getLastD_mem c0 rest 0)
  · intro v hv
    exact sorted_le_getLastD hsorted (hperm.mem_iff.mpr hv) 0
  · show mean (c0 :: rest) = ys.sum / ys.length
    rw [mean_perm hperm]
    rfl
  · intro hodd
    show median (c0 :: rest) = (c0 :: rest).getD ((ys.length - 1) / 2) 0
    rw [hmed, hslen, if_pos hodd]
    congr 1
    omega
  · intro heven
    show median (c0 :: rest) = ((c0 :: rest).getD (ys.length / 2 - 1) 0 +
        (c0 :: rest).getD (ys.length / 2) 0) / 2
    rw [hmed, hslen, if_neg (by omega)]

/-- C4 witness: the spec's own scenario, `[10, 30, 20]` for "MSFT". -/
theorem C4_aggregator_stats_witness :
    ∃ st : TickerStats,
      process_data ⟨some [⟨some 10⟩, ⟨some 30⟩, ⟨some 20⟩], some "MSFT", false⟩ =
        .stats st ∧
      List.Perm (sortQ [10, 30, 20]) [10, 30, 20] ∧
      (sortQ [10, 30, 20]).Sorted (· ≤ ·) ∧
      st.min = (sortQ [10, 30, 20]).getD 0 0 ∧ st.min ∈ [10, 30, 20] ∧
        (∀ v ∈ [(10 : ℚ), 30, 20], st.min ≤ v) ∧
      st.max = (sortQ [10, 30, 20]).getD (([10, 30, 20] : List ℚ).length - 1) 0 ∧
        st.max ∈ [10, 30, 20] ∧ (∀ v ∈ [(10 : ℚ), 30, 20], v ≤ st.max) ∧
      st.avg = ([10, 30, 20] : List ℚ).sum / ([10, 30, 20] : List ℚ).length ∧
      (([10, 30, 20] : List ℚ).length % 2 = 1 →
        st.median = (sortQ [10, 30, 20]).getD ((([10, 30, 20] : List ℚ).length - 1) / 2) 0) ∧
      (([10, 30, 20] : List ℚ).length % 2 = 0 →
        st.median = ((sortQ [10, 30, 20]).getD (([10, 30, 20] : List ℚ).length / 2 - 1) 0 +
                     (sortQ [10, 30, 20]).getD (([10, 30, 20] : List ℚ).length / 2) 0) / 2) ∧
      st.ticker = "MSFT" :=
  C4_aggregator_stats ⟨some [⟨some 10⟩, ⟨some 30⟩, ⟨some 20⟩], some "MSFT", false⟩
    [⟨some 10⟩, ⟨some 30⟩, ⟨some 20⟩] [10, 30, 20] "MSFT" rfl rfl (by decide) rfl

/-- C6 counterexample: a decoded dict with a valid non-empty chart but no
`"symbol"` key makes `process_data` raise an uncaught `KeyError`
(`data["symbol"]` is outside every `try`): the result is neither a stats
record tagged with the request ticker nor a clean failure, contradicting
the claim that the request identifier is used as fallback and that tagging
never fails for an otherwise valid series. -/
theorem C6_counterexample :
    process_data ⟨some [⟨some 10⟩], none, false⟩ = .crash := rfl

/-- C6 amended: the stats record is always tagged with the `symbol` field of
the decoded data dictionary — the original request's ticker is never
consulted (`process_data` does not even receive it) — and when the envelope
supplies no symbol, `process_data` raises an uncaught `KeyError` instead of
falling back to the request identifier. -/
theorem C6_symbol_tagging :
    (∀ (d : StockDict) (chart : List PricePoint) (ys : List ℚ) (sym : String),
        d.chart = some chart → extractY chart = some ys → ys ≠ [] →
        d.symbol = some sym →
        ∃ st, process_data d = .stats st ∧ st.ticker = sym) ∧
    (∀ (d : StockDict) (chart : List PricePoint) (ys : List ℚ),
        d.chart = some chart → extractY chart = some ys → ys ≠ [] →
        d.symbol = none → process_data d = .crash) := by
  constructor
  · intro d chart ys sym hc hy hne hsym
    have hslen : (sortQ ys).length = ys.length := sortQ_length ys
    rcases hs : sortQ ys with _ | ⟨c0, rest⟩
    · rw [hs] at hslen
      exact absurd (List.length_eq_zero.mp hslen.symm) hne
    · exact ⟨_, process_data_eq_stats hc hy hs hsym, rfl⟩
  · intro d chart ys hc hy hne hsym
    have hslen : (sortQ ys).length = ys.length := sortQ_length ys
    rcases hs : sortQ ys with _ | ⟨c0, rest⟩
    · rw [hs] at hslen
      exact absurd (List.length_eq_zero.mp hslen.symm) hne
    · exact process_data_eq_crash_no_symbol hc hy hs hsym

/-- C6 witness: with the provider-confirmed symbol "msft" in the envelope
(differing from any uppercased request identifier), the stats are tagged
"msft". -/
theorem C6_symbol_tagging_witness :
    ∃ st, process_data ⟨some [⟨some 10⟩, ⟨some 20⟩], some "msft", true⟩ =
        .stats st ∧ st.ticker = "msft" :=
  C6_symbol_tagging.1 ⟨some [⟨some 10⟩, ⟨some 20⟩], some "msft", true⟩
    [⟨some 10⟩, ⟨some 20⟩] [10, 20] "msft" rfl rfl (by decide) rfl

/-- C9: the aggregator is permutation-invariant — two decoded dicts whose
chart lists are permutations of one another and whose `symbol` fields agree
produce identical results (the sort makes the statistics independent of
provider delivery order, and every other branch also coincides). -/
theorem C9_process_data_perm_invariant
    (d₁ d₂ : StockDict) (c₁ c₂ : List PricePoint)
    (h₁ : d₁.chart = some c₁) (h₂ : d₂.chart = some c₂)
    (hp : List.Perm c₁ c₂) (hsym : d₁.symbol = d₂.symbol) :
    process_data d₁ = process_data d₂ := by
  have hallIff : (c₁.all fun p => p.y.isSome) = true ↔
      (c₂.all fun p => p.y.isSome) = true := by
    simp only [List.all_eq_true]
    exact ⟨fun h x hx => h x (hp.mem_iff.mpr hx),
           fun h x hx => h x (hp.mem_iff.mp hx)⟩
  by_cases hb : (c₂.all fun p => p.y.isSome) = true
  · have hb₁ : (c₁.all fun p => p.y.isSome) = true := hallIff.mpr hb
    have he₁ : extractY c₁ = some (c₁.map fun p => p.y.getD 0) := by
      simp [extractY_eq, hb₁]
    have he₂ : extractY c₂ = some (c₂.map fun p => p.y.getD 0) := by
      simp [extractY_eq, hb]
    have hsq : sortQ (c₁.map fun p => p.y.getD 0) =
        sortQ (c₂.map fun p => p.y.getD 0) :=
      sortQ_eq_of_perm (hp.map fun p => p.y.getD 0)
    rcases hs : sortQ (c₂.map fun p => p.y.getD 0) with _ | ⟨c0, rest⟩ <;>
      simp [process_data, isEmptyDict_of_chart h₁, isEmptyDict_of_chart h₂,
        h₁, h₂, he₁, he₂, hsq, hs, hsym]
  · have hb₁ : ¬ (c₁.all fun p => p.y.isSome) = true := fun h => hb (hallIff.mp h)
    have he₁ : extractY c₁ = none := by simp [extractY_eq, hb₁]
    have he₂ : extractY c₂ = none := by simp [extractY_eq, hb]
    simp [process_data, isEmptyDict_of_chart h₁, isEmptyDict_of_chart h₂,
      h₁, h₂, he₁, he₂]

/-- C9 witness: two deliveries of the same three points in different orders
(and with different irrelevant extra keys) aggregate identically. -/
theorem C9_process_data_perm_invariant_witness :
    process_data ⟨some [⟨some 10⟩, ⟨some 30⟩, ⟨some 20⟩], some "MSFT", false⟩ =
    process_data ⟨some [⟨some 20⟩, ⟨some 10⟩, ⟨some 30⟩], some "MSFT", true⟩ :=
  C9_process_data_perm_invariant
    ⟨some [⟨some 10⟩, ⟨some 30⟩, ⟨some 20⟩], some "MSFT", false⟩
    ⟨some [⟨some 20⟩, ⟨some 10⟩, ⟨some 30⟩], some "MSFT", true⟩
    [⟨some 10⟩, ⟨some 30⟩, ⟨some 20⟩] [⟨some 20⟩, ⟨some 10⟩, ⟨some 30⟩]
    rfl rfl (by decide) rfl

/-- Invariant of the negotiation loop: whenever the routine is at the
confirmation prompt, the target name survived the cancellation guard; hence
any file opened for writing has a non-"cancel" name. -/
theorem storeRun_wrote_ne_cancel (payload : String) :
    ∀ (inputs : List String) (fs : FileSys) (mode : Mode),
      (∀ t, mode = Mode.confirm t → pyLower t ≠ "cancel") →
      ∀ n, (storeRun payload fs mode inputs).wrote = some n →
        pyLower n ≠ "cancel"
  | [], fs, .name, _, n, h => by simp [storeRun] at h
  | [], fs, .confirm t, hmode, n, h => by
      by_cases hw : fs.writable t
      · have : t = n := by simpa [storeRun, hw] using h
        exact this ▸ hmode t rfl
      · simp [storeRun, hw] at h
  | x :: rest, fs, .name, _, n, h => by
      by_cases hx : pyLower x = "cancel"
      · simp [storeRun, hx] at h
      · rcases hc : fs.contents x with _ | c
        · by_cases hw : fs.writable x
          · have : x = n := by simpa [storeRun, hx, hc, hw] using h
            exact this ▸ hx
          · rw [show storeRun payload fs .name (x :: rest) =
                storeRun payload fs .name rest by simp [storeRun, hx, hc, hw]] at h
            exact storeRun_wrote_ne_cancel payload rest fs .name (by simp) n h
        · rw [show storeRun payload fs .name (x :: rest) =
              storeRun payload fs (.confirm x) rest by simp [storeRun, hx, hc]] at h
          exact storeRun_wrote_ne_cancel payload rest fs (.confirm x)
            (fun t ht => by cases ht; exact hx) n h
  | x :: rest, fs, .confirm t, hmode, n, h => by
      have hnt : pyLower t ≠ "cancel" := hmode t rfl
      rcases hd : (pyLower x).data with _ | ⟨ch, tl⟩
      · by_cases hw : fs.writable t
        · have : t = n := by simpa [storeRun, hd, hw] using h
          exact this ▸ hnt
        · rw [show storeRun payload fs (.confirm t) (x :: rest) =
              storeRun payload fs .name rest by simp [storeRun, hd, hw]] at h
          exact storeRun_wrote_ne_cancel payload rest fs .name (by simp) n h
      · by_cases hy : ch = 'y'
        · by_cases hw : fs.writable t
          · have : t = n := by simpa [storeRun, hd, hy, hw] using h
            exact this ▸ hnt
          · rw [show storeRun payload fs (.confirm t) (x :: rest) =
                storeRun payload fs .name rest by simp [storeRun, hd, hy, hw]] at h
            exact storeRun_wrote_ne_cancel payload rest fs .name (by simp) n h
        · by_cases hn : ch = 'n'
          · rw [show storeRun payload fs (.confirm t) (x :: rest) =
                storeRun payload fs .name rest by simp [storeRun, hd, hy, hn]] at h
            exact storeRun_wrote_ne_cancel payload rest fs .name (by simp) n h
          · rw [show storeRun payload fs (.confirm t) (x :: rest) =
                storeRun payload fs (.confirm t) rest by simp [storeRun, hd, hy, hn]] at h
            exact storeRun_wrote_ne_cancel payload rest fs (.confirm t) hmode n h

/-- C3: evaluation of the code at the failing input.  The operator's empty
response to the overwrite question has no first character at all — in
particular it is not 'y'-initial — yet the existing file is opened for
writing and overwritten: `response[0]` raises `IndexError` inside the outer
`try`, the bare `except` intended for the file-does-not-exist case catches
it, and its handler opens the file in write mode.  The claim's re-prompt
loop is bypassed and a non-'y' response overwrites the file. -/
theorem C3_empty_response_overwrites :
    (pyLower "").data = [] ∧
    (store_json "NEW"
        ⟨fun n => if n = "data.json" then some "old" else none, fun _ => true⟩
        ["data.json", ""]).wrote = some "data.json" ∧
    (store_json "NEW"
        ⟨fun n => if n = "data.json" then some "old" else none, fun _ => true⟩
        ["data.json", ""]).fs.contents "data.json" = some "NEW" := by
  refine ⟨rfl, ?_, ?_⟩ <;> decide

/-- C7: with an existing file at the chosen name and an 'n'-initial response
(e.g. "no") to the overwrite question, the negotiation returns to the name
prompt with nothing changed — the run continues exactly as if those two
exchanges had not happened — and in particular the existing file's contents
are untouched by the existence check and the declined confirmation (shown
for the run that then cancels: the final filesystem still maps the name to
its old contents and nothing was written). -/
theorem C7_decline_preserves_file (payload : String) (fs : FileSys)
    (name resp contents : String) (rest : List String)
    (hex : fs.contents name = some contents)
    (hnc : pyLower name ≠ "cancel")
    (hn : (pyLower resp).data.head? = some 'n') :
    store_json payload fs (name :: resp :: rest) = store_json payload fs rest ∧
    (store_json payload fs (name :: resp :: ["cancel"])).fs.contents name =
      some contents ∧
    (store_json payload fs (name :: resp :: ["cancel"])).wrote = none := by
  have key : ∀ rs : List String,
      store_json payload fs (name :: resp :: rs) = store_json payload fs rs := by
    intro rs
    show storeRun payload fs .name (name :: resp :: rs) =
      storeRun payload fs .name rs
    rcases hd : (pyLower resp).data with _ | ⟨ch, tl⟩
    · rw [hd] at hn
      simp at hn
    · have hch : ch = 'n' := by
        rw [hd] at hn
        simpa using hn
      subst hch
      simp [storeRun, hnc, hex, hd]
  have hpc : pyLower "cancel" = "cancel" := by decide
  have hcan : store_json payload fs ["cancel"] = ⟨fs, none, false⟩ := by
    show storeRun payload fs .name ["cancel"] = ⟨fs, none, false⟩
    simp [storeRun, hpc]
  refine ⟨key rest, ?_, ?_⟩
  · rw [key ["cancel"], hcan]
    exact hex
  · rw [key ["cancel"], hcan]

/-- C7 witness. -/
theorem C7_decline_preserves_file_witness :
    store_json "P"
        ⟨fun n => if n = "data.json" then some "old" else none, fun _ => true⟩
        ["data.json", "No", "x"] =
      store_json "P"
        ⟨fun n => if n = "data.json" then some "old" else none, fun _ => true⟩
        ["x"] ∧
    (store_json "P"
        ⟨fun n => if n = "data.json" then some "old" else none, fun _ => true⟩
        ["data.json", "No", "cancel"]).fs.contents "data.json" = some "old" ∧
    (store_json "P"
        ⟨fun n => if n = "data.json" then some "old" else none, fun _ => true⟩
        ["data.json", "No", "cancel"]).wrote = none :=
  C7_decline_preserves_file "P"
    ⟨fun n => if n = "data.json" then some "old" else none, fun _ => true⟩
    "data.json" "No" "old" ["x"] (by decide) (by decide) (by decide)

/-- C10: the Persister never targets a file whose name case-insensitively
equals "cancel": (1) whatever the operator types, any file opened for
writing (and dumped to) has a name whose lowercasing is not "cancel", since
every `open(file_name, "w")` in the source sits under the
`file_name.lower() != "cancel"` guard; and (2) a name-prompt response that
lowercases to "cancel" ends the negotiation at once with no write and the
filesystem untouched. -/
theorem C10_never_writes_cancel :
    (∀ (payload : String) (fs : FileSys) (inputs : List String) (n : String),
        (store_json payload fs inputs).wrote = some n →
        pyLower n ≠ "cancel") ∧
    (∀ (payload : String) (fs : FileSys) (r : String) (rest : List String),
        pyLower r = "cancel" →
        store_json payload fs (r :: rest) = ⟨fs, none, false⟩) := by
  constructor
  · intro payload fs inputs n h
    exact storeRun_wrote_ne_cancel payload inputs fs .name (by simp) n h
  · intro payload fs r rest h
    show storeRun payload fs .name (r :: rest) = ⟨fs, none, false⟩
    simp [storeRun, h]

/-- C10 witness: a lowercase-"cancel" response (here "CANCEL") terminates the
loop with no write even though further input is available, and a written
file's name is not "cancel". -/
theorem C10_never_writes_cancel_witness :
    pyLower "data.json" ≠ "cancel" ∧
    store_json "P" ⟨fun _ => none, fun _ => true⟩ ["CANCEL", "data.json"] =
      ⟨⟨fun _ => none, fun _ => true⟩, none, false⟩ :=
  ⟨C10_never_writes_cancel.1 "P" ⟨fun _ => none, fun _ => true⟩
      ["data.json"] "data.json" (by decide),
   C10_never_writes_cancel.2 "P" ⟨fun _ => none, fun _ => true⟩
      "CANCEL" ["data.json"] (by decide)⟩

end StockData
